import Mathlib

set_option maxRecDepth 40000

/-!
# Verification of the x-monitor scan pipeline (src/monitor.py)

Shallow embedding of the fetch-fallback-and-dedup pipeline of
`src/monitor.py`.  Pure data flow is embedded directly; the effectful
boundaries (HTTP fetchers, the Cerebras summarizer, the Telegram
notifier, the wall clock, and the md5 digest) are passed in as explicit
function parameters, and each invocation of an effect is recorded in the
returned `ScanResult` so that "called exactly once / never called"
properties can be stated.
-/

/-- A post record as produced by the source adapters in `monitor.py`
(fields `author`, `text`, `url`, `timestamp`).  The twstalker adapter
omits the timestamp key; we model that record with `timestamp := ""`. -/
structure Tweet where
  author : String
  text : String
  url : String
  timestamp : String
deriving DecidableEq, Repr

/-- The persisted state document (`load_state` / `save_state`):
`{seen_hashes: [string], last_scan: string|null}`. -/
structure ScanState where
  seen_hashes : List String
  last_scan : Option String
deriving DecidableEq, Repr

/-- Fingerprint of a tweet, `hashlib.md5(tweet.get("text", "")[:100].encode()).hexdigest()`
in `run_scan` (line 346).  The md5 digest itself is kept abstract as the
`digest` parameter; what the code fixes is that the digest is applied to
the first 100 characters of the text. -/
def fingerprint (digest : String → String) (t : Tweet) : String :=
  digest (t.text.take 100)

/-- The deduplication loop of `run_scan` (lines 344-349), what the spec names
`filterNew`: walk the batch in order; a tweet whose fingerprint is not in
the seen list is kept and its fingerprint appended to the list
immediately (so a later batch member with the same fingerprint is
treated as already seen). Returns (new tweets, updated seen list). -/
def filterNew (digest : String → String) : List Tweet → List String → List Tweet × List String
  | [], seen => ([], seen)
  | t :: ts, seen =>
    if fingerprint digest t ∈ seen then
      filterNew digest ts seen
    else
      (t :: (filterNew digest ts (seen ++ [fingerprint digest t])).1,
        (filterNew digest ts (seen ++ [fingerprint digest t])).2)

/-- Python slice `xs[-n:]`: the last `n` elements of the list (all of them if
it is shorter).  Used by line 351, `state["seen_hashes"] = state["seen_hashes"][-500:]`. -/
def lastN (n : Nat) (xs : List α) : List α :=
  xs.drop (xs.length - n)

/-- Boolean list-prefix test over characters. -/
def isPref : List Char → List Char → Bool
  | [], _ => true
  | _ :: _, [] => false
  | a :: as, b :: bs => a == b && isPref as bs

/-- Boolean substring test over characters: the Python expression `needle in hay`. -/
def isSub (needle : List Char) : List Char → Bool
  | [] => isPref needle []
  | c :: cs => isPref needle (c :: cs) || isSub needle cs

/-- Python `"No major highlights" in analysis` (run_scan line 364). -/
def containsNMH (s : String) : Bool :=
  isSub "No major highlights".data s.data

/-- The notification guard of `run_scan` (line 364):
`if analysis and "No major highlights" not in analysis and len(analysis) > 50`. -/
def shouldNotify (s : String) : Bool :=
  (!(s == "")) && (!(containsNMH s)) && decide (50 < s.length)

/-- Record of the observable effects of one `run_scan` invocation:
the argument of each `analyze_with_cerebras` call, the message and
result of each `send_to_telegram` call, and the state passed to each
`save_state` call, in order. -/
structure ScanResult where
  analyzeCalls : List (List Tweet)
  notifyCalls : List (String × Bool)
  saveCalls : List ScanState
deriving DecidableEq, Repr

/-- The argument of the summarizer call at line 361,
`analyze_with_cerebras(new_tweets if new_tweets else tweets)`. -/
def analysisArg (digest : String → String) (state : ScanState) (tweets : List Tweet) :
    List Tweet :=
  if (filterNew digest tweets state.seen_hashes).1 ≠ []
  then (filterNew digest tweets state.seen_hashes).1
  else tweets

/-- Model of `run_scan` (monitor.py lines 331-370).  `state` is the result of
`load_state()`, `tweets` the result of `fetch_all_tweets()`, `analyzer`
and `notifier` stand for `analyze_with_cerebras` and `send_to_telegram`
(whose Boolean result the code discards), and `now` for
`datetime.utcnow().isoformat()`. -/
def run_scan (digest : String → String) (state : ScanState) (tweets : List Tweet)
    (force_post : Bool) (analyzer : List Tweet → String) (notifier : String → Bool)
    (now : String) : ScanResult :=
  if tweets = [] then
    { analyzeCalls := [], notifyCalls := [], saveCalls := [] }
  else
    let fn := filterNew digest tweets state.seen_hashes
    let new_tweets := fn.1
    let seen := lastN 500 fn.2
    if new_tweets = [] ∧ force_post = false then
      { analyzeCalls := [], notifyCalls := [],
        saveCalls := [{ seen_hashes := seen, last_scan := some now }] }
    else
      let arg := analysisArg digest state tweets
      let analysis := analyzer arg
      { analyzeCalls := [arg],
        notifyCalls := if shouldNotify analysis then [(analysis, notifier analysis)] else [],
        saveCalls := [{ seen_hashes := seen, last_scan := some now }] }

/-- The persisted document after one scan: the state written by
`save_state` if the scan wrote one, else the previous document. -/
def scanPersisted (digest : String → String) (analyzer : List Tweet → String)
    (notifier : String → Bool) (st : ScanState)
    (args : List Tweet × Bool × String) : ScanState :=
  ((run_scan digest st args.1 args.2.1 analyzer notifier args.2.2).saveCalls).headD st

/-- The persisted document after a sequence of scans (the scheduling
loop in `main`), each scan given its fetched batch, force flag and
timestamp. -/
def runScans (digest : String → String) (analyzer : List Tweet → String)
    (notifier : String → Bool) (st : ScanState) :
    List (List Tweet × Bool × String) → ScanState
  | [] => st
  | b :: bs => runScans digest analyzer notifier (scanPersisted digest analyzer notifier st b) bs

/-- The per-account fallback loop of `fetch_all_tweets` (lines 204-218):
try the adapters in order, stop at the first non-empty result.  Also
returns how many adapters were invoked. -/
def fetch_account (adapters : List (String → List Tweet)) (account : String) :
    List Tweet × Nat :=
  match adapters with
  | [] => ([], 0)
  | f :: fs =>
    if f account ≠ [] then (f account, 1)
    else ((fetch_account fs account).1, (fetch_account fs account).2 + 1)

/-- The target account list (monitor.py lines 25-33). -/
def TARGET_ACCOUNTS : List String :=
  ["Pumpfun", "Raydium", "MeteoraAG", "MarioNawfal", "RohOnChain", "xDaily",
    "JupiterExchange"]

/-- Model of `fetch_all_tweets` (lines 200-220): aggregate the fallback result of
every target account, in account order. -/
def fetch_all_tweets (adapters : List (String → List Tweet)) : List Tweet :=
  (TARGET_ACCOUNTS.map fun a => (fetch_account adapters a).1).flatten

/-- Python truthiness of `x or y` for `x` a `.get` result on string fields:
`none` (key absent or null) and the empty string are falsy. -/
def pyOrStr (a : Option String) (b : String) : String :=
  match a with
  | some s => if s = "" then b else s
  | none => b

/-- The response extraction of `analyze_with_cerebras` (line 284):
`msg.get("content") or msg.get("reasoning") or ""`. -/
def extract_text (content reasoning : Option String) : String :=
  pyOrStr content (pyOrStr reasoning "")

/-- The response branch of `analyze_with_cerebras` (lines 281-287): on
status 200 extract the message text, otherwise log and return "". -/
def analyze_response (status : Nat) (content reasoning : Option String) : String :=
  if status = 200 then extract_text content reasoning else ""

/-- The reading in the claim of the extraction: return the content field
whenever it is present, fall back to reasoning only when content is
absent from the message. -/
def extract_text_claim (content reasoning : Option String) : String :=
  match content with
  | some c => c
  | none =>
    match reasoning with
    | some r => r
    | none => ""

/-- The amended reading: content when present and non-empty, else
reasoning when present and non-empty, else the empty string. -/
def extract_text_amended (content reasoning : Option String) : String :=
  match content with
  | some c =>
    if c ≠ "" then c
    else
      match reasoning with
      | some r => if r ≠ "" then r else ""
      | none => ""
  | none =>
    match reasoning with
    | some r => if r ≠ "" then r else ""
    | none => ""

/-- Minimal model of the Python values flowing through
`fetch_via_twstalker`: a list of strings, or the iterator returned by
`re.finditer` (carrying the matches it would yield). -/
inductive PyObj where
  | pyList (xs : List String)
  | pyIter (xs : List String)
deriving DecidableEq, Repr

/-- Python errors we model. -/
inductive PyErr where
  | typeError
deriving DecidableEq, Repr

/-- Python subscript `obj[:n]`: lists implement `__getitem__` with
slices; an iterator (such as the result of `re.finditer`) does not and
raises `TypeError`. -/
def pySlice (v : PyObj) (n : Nat) : Except PyErr (List String) :=
  match v with
  | .pyList xs => .ok (xs.take n)
  | .pyIter _ => .error .typeError

/-- Model of `re.finditer`: it returns an iterator object, not a list. The regex
engine itself is abstracted: `ms` are the captured tweet-content groups
the pattern would find in the page. -/
def finditer (ms : List String) : PyObj :=
  .pyIter ms

mutual

/-- Models `re.sub(r'<[^>]+>', '', s)`: drop `<`-to-`>` tag spans,
keep other characters. -/
def stripTags : List Char → List Char
  | [] => []
  | c :: cs => if c = '<' then dropTag cs else c :: stripTags cs

/-- Inside a tag: skip until the closing `>`. -/
def dropTag : List Char → List Char
  | [] => []
  | c :: cs => if c = '>' then stripTags cs else dropTag cs

end

/-- The per-match body of the twstalker loop (lines 182-188): strip the
markup, trim, keep texts longer than 20 characters, build the record
(no timestamp key in this adapter). -/
def processMatch (account m : String) : Option Tweet :=
  let text := (String.mk (stripTags m.data)).trim
  if text ≠ "" ∧ 20 < text.length then
    some { author := "@" ++ account, text := text.take 1000,
           url := "https://x.com/" ++ account, timestamp := "" }
  else none

/-- Model of `fetch_via_twstalker` (lines 161-197).  `status` is the HTTP status
of the page request and `groups` the tweet-content groups the regex
would find in the body.  Line 181 subscripts the `finditer` iterator
(`tweet_pattern.finditer(resp.text)[:10]`); the whole body sits in a
`try` whose handler returns the tweets accumulated so far. -/
def fetch_via_twstalker (status : Nat) (groups : List String) (account : String) :
    List Tweet :=
  let body : Except PyErr (List Tweet) :=
    if status = 200 then
      match pySlice (finditer groups) 10 with
      | .error e => .error e
      | .ok ms => .ok (ms.filterMap (processMatch account))
    else
      .ok []
  match body with
  | .ok ts => ts
  | .error _ => []

/-- The keep rule of `filterNew` as worded in the spec, accumulated over the
batch: a post is kept iff its fingerprint is absent from the initial
seen list and from the fingerprints of all earlier posts of the batch. -/
def keepSpec (digest : String → String) (seen : List String) :
    List Tweet → List String → List Tweet
  | [], _ => []
  | t :: ts, earlier =>
    if fingerprint digest t ∈ seen ∨ fingerprint digest t ∈ earlier then
      keepSpec digest seen ts (earlier ++ [fingerprint digest t])
    else
      t :: keepSpec digest seen ts (earlier ++ [fingerprint digest t])

/-- Comparison definition following the spec wording of `filterNew`: keep the posts given by
`keepSpec`, and the updated state is the old one with each kept post
fingerprint appended. -/
def filterNewSpec (digest : String → String) (ts : List Tweet) (seen : List String) :
    List Tweet × List String :=
  (keepSpec digest seen ts [],
    seen ++ (keepSpec digest seen ts []).map (fingerprint digest))

/-! ## Helper lemmas -/

theorem mem_filterNew_snd_of_mem (digest : String → String) (ts : List Tweet)
    (seen : List String) (a : String) (h : a ∈ seen) :
    a ∈ (filterNew digest ts seen).2 := by
  induction ts generalizing seen with
  | nil => simpa [filterNew] using h
  | cons t ts ih =>
    by_cases hc : fingerprint digest t ∈ seen
    · simpa [filterNew, hc] using ih seen h
    · simp only [filterNew, if_neg hc]
      exact ih _ (by simp [h])

theorem fingerprint_mem_filterNew_snd (digest : String → String) (t : Tweet)
    (ts : List Tweet) (seen : List String) (h : t ∈ ts) :
    fingerprint digest t ∈ (filterNew digest ts seen).2 := by
  induction ts generalizing seen with
  | nil => cases h
  | cons u ts ih =>
    rcases List.mem_cons.mp h with rfl | hmem
    · by_cases hc : fingerprint digest t ∈ seen
      · simp only [filterNew, if_pos hc]
        exact mem_filterNew_snd_of_mem digest ts seen _ hc
      · simp only [filterNew, if_neg hc]
        exact mem_filterNew_snd_of_mem digest ts _ _ (by simp)
    · by_cases hc : fingerprint digest u ∈ seen
      · simp only [filterNew, if_pos hc]
        exact ih seen hmem
      · simp only [filterNew, if_neg hc]
        exact ih _ hmem

theorem filterNew_fst_nil (digest : String → String) (ts : List Tweet)
    (S : List String) (h : ∀ t ∈ ts, fingerprint digest t ∈ S) :
    (filterNew digest ts S).1 = [] := by
  induction ts with
  | nil => simp [filterNew]
  | cons t ts ih =>
    have ht : fingerprint digest t ∈ S := h t (by simp)
    simp only [filterNew, if_pos ht]
    exact ih fun x hx => h x (by simp [hx])

theorem filterNew_snd_eq (digest : String → String) (ts : List Tweet)
    (seen : List String) :
    (filterNew digest ts seen).2
      = seen ++ ((filterNew digest ts seen).1).map (fingerprint digest) := by
  induction ts generalizing seen with
  | nil => simp [filterNew]
  | cons t ts ih =>
    by_cases hc : fingerprint digest t ∈ seen
    · simp only [filterNew, if_pos hc]
      exact ih seen
    · simp only [filterNew, if_neg hc]
      rw [ih (seen ++ [fingerprint digest t])]
      simp

theorem filterNew_fst_eq_keepSpec (digest : String → String) (seen : List String)
    (ts : List Tweet) (cur earlier : List String)
    (hinv : ∀ x, x ∈ cur ↔ (x ∈ seen ∨ x ∈ earlier)) :
    (filterNew digest ts cur).1 = keepSpec digest seen ts earlier := by
  induction ts generalizing cur earlier with
  | nil => simp [filterNew, keepSpec]
  | cons t ts ih =>
    by_cases hc : fingerprint digest t ∈ cur
    · have hor : fingerprint digest t ∈ seen ∨ fingerprint digest t ∈ earlier :=
        (hinv _).mp hc
      simp only [filterNew, if_pos hc, keepSpec, if_pos hor]
      apply ih cur (earlier ++ [fingerprint digest t])
      intro x
      constructor
      · intro hx
        rcases (hinv x).mp hx with h | h
        · exact Or.inl h
        · exact Or.inr (by simp [h])
      · intro hx
        rcases hx with h | h
        · exact (hinv x).mpr (Or.inl h)
        · rcases List.mem_append.mp h with h | h
          · exact (hinv x).mpr (Or.inr h)
          · simp only [List.mem_singleton] at h
            subst h
            exact hc
    · have hor : ¬(fingerprint digest t ∈ seen ∨ fingerprint digest t ∈ earlier) :=
        fun h => hc ((hinv _).mpr h)
      simp only [filterNew, if_neg hc, keepSpec, if_neg hor]
      congr 1
      apply ih (cur ++ [fingerprint digest t]) (earlier ++ [fingerprint digest t])
      intro x
      simp only [List.mem_append, List.mem_singleton]
      constructor
      · rintro (hx | hx)
        · rcases (hinv x).mp hx with h | h
          · exact Or.inl h
          · exact Or.inr (Or.inl h)
        · exact Or.inr (Or.inr hx)
      · rintro (h | h | h)
        · exact Or.inl ((hinv x).mpr (Or.inl h))
        · exact Or.inl ((hinv x).mpr (Or.inr h))
        · exact Or.inr h

/-! ## Claims C3 and C4 -/

/-- Claim C3: dedup idempotence.  For every batch and every starting
seen list, running `filterNew` on the batch and then again on the same
batch with the state produced by the first run yields zero new posts
the second time. -/
theorem filterNew_idempotent (digest : String → String) (batch : List Tweet)
    (seen : List String) :
    (filterNew digest batch (filterNew digest batch seen).2).1 = [] :=
  filterNew_fst_nil digest batch _ fun t ht =>
    fingerprint_mem_filterNew_snd digest t batch seen ht

/-- Claim C4: the dedup filter keeps exactly the posts whose fingerprint
is absent from the seen list, with the first occurrence winning among
batch-internal duplicates, and appends each kept post fingerprint to the
state - `filterNew` coincides with the spec-worded `filterNewSpec`. -/
theorem filterNew_eq_spec (digest : String → String) (ts : List Tweet)
    (seen : List String) :
    filterNew digest ts seen = filterNewSpec digest ts seen := by
  have h1 : (filterNew digest ts seen).1 = keepSpec digest seen ts [] :=
    filterNew_fst_eq_keepSpec digest seen ts seen [] (by intro x; simp)
  have h2 := filterNew_snd_eq digest ts seen
  apply Prod.ext
  · exact h1
  · rw [filterNewSpec, h2, h1]

theorem lastN_length_le (n : Nat) (xs : List α) : (lastN n xs).length ≤ n := by
  simp only [lastN, List.length_drop]
  omega

theorem lastN_eq_self (n : Nat) (xs : List α) (h : xs.length ≤ n) :
    lastN n xs = xs := by
  simp [lastN, Nat.sub_eq_zero_of_le h]

theorem lastN_is_suffix (n : Nat) (xs : List α) :
    ∃ pre, pre ++ lastN n xs = xs :=
  ⟨xs.take (xs.length - n), List.take_append_drop _ _⟩

theorem run_scan_saveCalls (digest : String → String) (st : ScanState)
    (tweets : List Tweet) (force : Bool) (analyzer : List Tweet → String)
    (notifier : String → Bool) (now : String) (h : tweets ≠ []) :
    (run_scan digest st tweets force analyzer notifier now).saveCalls
      = [{ seen_hashes := lastN 500 (filterNew digest tweets st.seen_hashes).2,
           last_scan := some now }] := by
  rw [run_scan, if_neg h]
  by_cases hb : (filterNew digest tweets st.seen_hashes).1 = [] ∧ force = false
  · rw [if_pos hb]
  · rw [if_neg hb]

theorem scanPersisted_length_le (digest : String → String)
    (analyzer : List Tweet → String) (notifier : String → Bool)
    (st : ScanState) (b : List Tweet × Bool × String)
    (h : st.seen_hashes.length ≤ 500) :
    (scanPersisted digest analyzer notifier st b).seen_hashes.length ≤ 500 := by
  rcases b with ⟨tweets, force, now⟩
  by_cases ht : tweets = []
  · subst ht
    simpa [scanPersisted, run_scan] using h
  · rw [scanPersisted]
    rw [run_scan_saveCalls digest st tweets force analyzer notifier now ht]
    simpa [List.headD] using lastN_length_le 500 (filterNew digest tweets st.seen_hashes).2

theorem runScans_length_le (digest : String → String)
    (analyzer : List Tweet → String) (notifier : String → Bool)
    (batches : List (List Tweet × Bool × String)) (st : ScanState)
    (h : st.seen_hashes.length ≤ 500) :
    (runScans digest analyzer notifier st batches).seen_hashes.length ≤ 500 := by
  induction batches generalizing st with
  | nil => simpa [runScans] using h
  | cons b bs ih =>
    rw [runScans]
    exact ih _ (scanPersisted_length_le digest analyzer notifier st b h)

/-! ## Claims C1 and C2 -/

/-- Claim C1 (counterexample): with zero fetched posts, `run_scan`
returns at line 341 before any `save_state` call, so the state document
is not written at all in that branch - not written exactly once. -/
theorem run_scan_zero_fetch_no_save :
    (run_scan (fun s => s) ⟨[], none⟩ [] false (fun _ => "") (fun _ => false)
        "2026-01-01T00:00:00").saveCalls.length = 0 := by
  rfl

/-- Claim C1 (amended): for every invocation of `run_scan` that fetched
at least one post, the state document is written exactly once and the
written state carries the refreshed last-scan timestamp, regardless of
which later branch (no new posts, skipped analysis, failed or
successful notification) the scan took; with zero fetched posts nothing
is written. -/
theorem run_scan_saves_once (digest : String → String) (st : ScanState)
    (tweets : List Tweet) (force : Bool) (analyzer : List Tweet → String)
    (notifier : String → Bool) (now : String) (h : tweets ≠ []) :
    (run_scan digest st tweets force analyzer notifier now).saveCalls.length = 1
    ∧ ∀ s ∈ (run_scan digest st tweets force analyzer notifier now).saveCalls,
        s.last_scan = some now := by
  rw [run_scan_saveCalls digest st tweets force analyzer notifier now h]
  refine ⟨rfl, ?_⟩
  intro s hs
  simp only [List.mem_singleton] at hs
  subst hs
  rfl

theorem run_scan_saves_once_witness :
    ([Tweet.mk "@a" "hello world" "u" ""] ≠ ([] : List Tweet))
    ∧ ((run_scan (fun s => s) ⟨[], none⟩ [Tweet.mk "@a" "hello world" "u" ""] false
          (fun _ => "") (fun _ => false) "T").saveCalls.length = 1
        ∧ ∀ s ∈ (run_scan (fun s => s) ⟨[], none⟩ [Tweet.mk "@a" "hello world" "u" ""] false
            (fun _ => "") (fun _ => false) "T").saveCalls, s.last_scan = some "T") :=
  ⟨by decide,
    run_scan_saves_once (fun s => s) ⟨[], none⟩ [Tweet.mk "@a" "hello world" "u" ""] false
      (fun _ => "") (fun _ => false) "T" (by decide)⟩

/-- Claim C2: if the seen list is within the 500-entry cap at scan
start, every state the scan persists is within the cap again, the kept
entries being a suffix of the in-memory list (the evicted ones are the
oldest, at the front); consequently after any number of scans the
persisted seen list never exceeds the cap. -/
theorem run_scan_bounded_seen (digest : String → String)
    (analyzer : List Tweet → String) (notifier : String → Bool)
    (st : ScanState) (tweets : List Tweet) (force : Bool) (now : String)
    (batches : List (List Tweet × Bool × String))
    (h : st.seen_hashes.length ≤ 500) :
    ((scanPersisted digest analyzer notifier st (tweets, force, now)).seen_hashes.length ≤ 500
      ∧ ∀ s ∈ (run_scan digest st tweets force analyzer notifier now).saveCalls,
          s.seen_hashes.length ≤ 500
          ∧ ∃ evicted, evicted ++ s.seen_hashes
              = (filterNew digest tweets st.seen_hashes).2)
    ∧ (runScans digest analyzer notifier st batches).seen_hashes.length ≤ 500 := by
  refine ⟨⟨scanPersisted_length_le digest analyzer notifier st _ h, ?_⟩,
    runScans_length_le digest analyzer notifier batches st h⟩
  intro s hs
  by_cases ht : tweets = []
  · subst ht
    simp [run_scan] at hs
  · rw [run_scan_saveCalls digest st tweets force analyzer notifier now ht] at hs
    simp only [List.mem_singleton] at hs
    subst hs
    refine ⟨?_, ?_⟩
    · exact lastN_length_le 500 (filterNew digest tweets st.seen_hashes).2
    · exact lastN_is_suffix 500 (filterNew digest tweets st.seen_hashes).2

theorem run_scan_bounded_seen_witness :
    ((ScanState.mk ["h1"] none).seen_hashes.length ≤ 500)
    ∧ (((scanPersisted (fun s => s) (fun _ => "") (fun _ => false) ⟨["h1"], none⟩
          ([Tweet.mk "@a" "hello world" "u" ""], false, "T")).seen_hashes.length ≤ 500
        ∧ ∀ s ∈ (run_scan (fun s => s) ⟨["h1"], none⟩ [Tweet.mk "@a" "hello world" "u" ""]
              false (fun _ => "") (fun _ => false) "T").saveCalls,
            s.seen_hashes.length ≤ 500
            ∧ ∃ evicted, evicted ++ s.seen_hashes
                = (filterNew (fun s => s) [Tweet.mk "@a" "hello world" "u" ""]
                    (ScanState.mk ["h1"] none).seen_hashes).2)
      ∧ (runScans (fun s => s) (fun _ => "") (fun _ => false) ⟨["h1"], none⟩
          [([Tweet.mk "@a" "hello world" "u" ""], false, "T")]).seen_hashes.length ≤ 500) :=
  ⟨by decide,
    run_scan_bounded_seen (fun s => s) (fun _ => "") (fun _ => false) ⟨["h1"], none⟩
      [Tweet.mk "@a" "hello world" "u" ""] false "T"
      [([Tweet.mk "@a" "hello world" "u" ""], false, "T")] (by decide)⟩

/-! ## Claim C5 -/

/-- Claim C5: the per-account fallback tries the adapters in the fixed
priority order and returns exactly the first non-empty result; if the
first adapter returns empty and the second returns 3 posts, the account
contributes exactly those 3 posts and only two adapters are ever
invoked - the third is never called. -/
theorem fetch_account_fallback (A B C : String → List Tweet) (account : String)
    (hA : A account = []) (hB : (B account).length = 3) :
    fetch_account [A, B, C] account = (B account, 2)
    ∧ (fetch_account [A, B, C] account).1.length = 3 := by
  have hBne : B account ≠ [] := by
    intro hnil
    rw [hnil] at hB
    simp at hB
  have hmain : fetch_account [A, B, C] account = (B account, 2) := by
    rw [fetch_account]
    simp only [hA, ne_eq, not_true_eq_false, if_false, ite_false]
    rw [fetch_account]
    simp [hBne]
  exact ⟨hmain, by rw [hmain]; exact hB⟩

theorem fetch_account_fallback_witness :
    ((fun _ : String => ([] : List Tweet)) "acct" = [])
    ∧ ((fun _ : String => [Tweet.mk "@b" "b1" "u" "", Tweet.mk "@b" "b2" "u" "",
          Tweet.mk "@b" "b3" "u" ""]) "acct").length = 3
    ∧ (fetch_account [fun _ => ([] : List Tweet),
          fun _ => [Tweet.mk "@b" "b1" "u" "", Tweet.mk "@b" "b2" "u" "",
            Tweet.mk "@b" "b3" "u" ""],
          fun _ => [Tweet.mk "@c" "c1" "u" ""]] "acct"
        = ([Tweet.mk "@b" "b1" "u" "", Tweet.mk "@b" "b2" "u" "",
            Tweet.mk "@b" "b3" "u" ""], 2)
      ∧ (fetch_account [fun _ => ([] : List Tweet),
            fun _ => [Tweet.mk "@b" "b1" "u" "", Tweet.mk "@b" "b2" "u" "",
              Tweet.mk "@b" "b3" "u" ""],
            fun _ => [Tweet.mk "@c" "c1" "u" ""]] "acct").1.length = 3) :=
  ⟨rfl, rfl,
    fetch_account_fallback (fun _ => ([] : List Tweet))
      (fun _ => [Tweet.mk "@b" "b1" "u" "", Tweet.mk "@b" "b2" "u" "",
        Tweet.mk "@b" "b3" "u" ""])
      (fun _ => [Tweet.mk "@c" "c1" "u" ""]) "acct" rfl rfl⟩

/-! ## Claim C7 -/

/-- Claim C7: in forced-post mode, when dedup yields zero new posts but
the fetched batch is non-empty, the summarizer is invoked with the full
fetched batch, not with the empty new-post set. -/
theorem run_scan_forced_full_batch (digest : String → String) (st : ScanState)
    (tweets : List Tweet) (analyzer : List Tweet → String)
    (notifier : String → Bool) (now : String)
    (ht : tweets ≠ [])
    (hnew : (filterNew digest tweets st.seen_hashes).1 = []) :
    (run_scan digest st tweets true analyzer notifier now).analyzeCalls = [tweets] := by
  rw [run_scan, if_neg ht]
  have hcond : ¬((filterNew digest tweets st.seen_hashes).1 = [] ∧ (true : Bool) = false) := by
    simp
  rw [if_neg hcond]
  simp [analysisArg, hnew]

theorem run_scan_forced_full_batch_witness :
    ([Tweet.mk "@a" "hello" "u" ""] ≠ ([] : List Tweet))
    ∧ (filterNew (fun s => s) [Tweet.mk "@a" "hello" "u" ""]
        (ScanState.mk ["hello"] none).seen_hashes).1 = []
    ∧ (run_scan (fun s => s) ⟨["hello"], none⟩ [Tweet.mk "@a" "hello" "u" ""] true
        (fun _ => "") (fun _ => false) "T").analyzeCalls
      = [[Tweet.mk "@a" "hello" "u" ""]] :=
  ⟨by decide, by decide,
    run_scan_forced_full_batch (fun s => s) ⟨["hello"], none⟩
      [Tweet.mk "@a" "hello" "u" ""] (fun _ => "") (fun _ => false) "T"
      (by decide) (by decide)⟩

/-! ## Claim C6 -/

theorem shouldNotify_eq_true_iff (s : String) :
    shouldNotify s = true ↔ (s ≠ "" ∧ containsNMH s = false ∧ 50 < s.length) := by
  simp [shouldNotify, Bool.and_eq_true, Bool.not_eq_true']
  tauto

theorem run_scan_notifyCalls (digest : String → String) (st : ScanState)
    (tweets : List Tweet) (force : Bool) (analyzer : List Tweet → String)
    (notifier : String → Bool) (now : String)
    (ht : tweets ≠ [])
    (ha : (filterNew digest tweets st.seen_hashes).1 ≠ [] ∨ force = true) :
    (run_scan digest st tweets force analyzer notifier now).notifyCalls
      = if shouldNotify (analyzer (analysisArg digest st tweets))
        then [(analyzer (analysisArg digest st tweets),
               notifier (analyzer (analysisArg digest st tweets)))]
        else [] := by
  rw [run_scan, if_neg ht]
  have hcond : ¬((filterNew digest tweets st.seen_hashes).1 = [] ∧ force = false) := by
    rcases ha with h | h
    · exact fun hc => h hc.1
    · intro hc
      rw [h] at hc
      exact Bool.noConfusion hc.2
  rw [if_neg hcond]

/-- Claim C6: with the summarizer actually reached (there are fetched
posts, and new posts exist or forced-post mode is set), the notifier is
invoked zero times when the summarizer output is empty, contains the
sentinel "No major highlights", or has length at most 50 - in
particular zero times when the output is exactly
"No major highlights this hour." - and exactly once in every other
case. -/
theorem run_scan_notify_gate (digest : String → String) (st : ScanState)
    (tweets : List Tweet) (force : Bool) (analyzer : List Tweet → String)
    (notifier : String → Bool) (now : String)
    (ht : tweets ≠ [])
    (ha : (filterNew digest tweets st.seen_hashes).1 ≠ [] ∨ force = true) :
    ((analyzer (analysisArg digest st tweets) = ""
        ∨ containsNMH (analyzer (analysisArg digest st tweets)) = true
        ∨ (analyzer (analysisArg digest st tweets)).length ≤ 50)
      → (run_scan digest st tweets force analyzer notifier now).notifyCalls.length = 0)
    ∧ ((analyzer (analysisArg digest st tweets) ≠ ""
        ∧ containsNMH (analyzer (analysisArg digest st tweets)) = false
        ∧ 50 < (analyzer (analysisArg digest st tweets)).length)
      → (run_scan digest st tweets force analyzer notifier now).notifyCalls.length = 1)
    ∧ (analyzer (analysisArg digest st tweets) = "No major highlights this hour."
      → (run_scan digest st tweets force analyzer notifier now).notifyCalls.length = 0) := by
  rw [run_scan_notifyCalls digest st tweets force analyzer notifier now ht ha]
  refine ⟨?_, ?_, ?_⟩
  · intro hsupp
    have hno : shouldNotify (analyzer (analysisArg digest st tweets)) = false := by
      rw [← Bool.not_eq_true]
      intro htrue
      rcases (shouldNotify_eq_true_iff _).mp htrue with ⟨h1, h2, h3⟩
      rcases hsupp with h | h | h
      · exact h1 h
      · rw [h2] at h
        exact Bool.noConfusion h
      · omega
    rw [hno]
    rfl
  · intro hgood
    rw [(shouldNotify_eq_true_iff _).mpr hgood]
    rfl
  · intro hsent
    have hno : shouldNotify (analyzer (analysisArg digest st tweets)) = false := by
      rw [hsent]
      decide
    rw [hno]
    rfl

theorem run_scan_notify_gate_witness :
    ([Tweet.mk "@a" "hello world" "u" ""] ≠ ([] : List Tweet))
    ∧ ((filterNew (fun s => s) [Tweet.mk "@a" "hello world" "u" ""]
          (ScanState.mk [] none).seen_hashes).1 ≠ [] ∨ (false : Bool) = true)
    ∧ (run_scan (fun s => s) ⟨[], none⟩ [Tweet.mk "@a" "hello world" "u" ""] false
        (fun _ => "No major highlights this hour.") (fun _ => false) "T").notifyCalls.length
      = 0 :=
  ⟨by decide, Or.inl (by decide),
    (run_scan_notify_gate (fun s => s) ⟨[], none⟩ [Tweet.mk "@a" "hello world" "u" ""]
        false (fun _ => "No major highlights this hour.") (fun _ => false) "T"
        (by decide) (Or.inl (by decide))).2.2 rfl⟩

/-! ## Claim C8 -/

/-- Claim C8 (counterexample): a status-200 response whose message has a
content field that is present but empty and a reasoning field "r" makes
the client return "r" - Python `or` also falls back on a present-but-
empty content - while the claim as stated would return the content
field "". -/
theorem analyze_response_empty_content_falls_back :
    analyze_response 200 (some "") (some "r") ≠ extract_text_claim (some "") (some "r") := by
  decide

/-- Claim C8 (amended): for every status-200 summarizer response, the
client returns the content field when it is present and non-empty,
falls back to the reasoning field when that is present and non-empty,
and returns the empty string otherwise. -/
theorem analyze_response_extraction (content reasoning : Option String) :
    analyze_response 200 content reasoning = extract_text_amended content reasoning := by
  cases content with
  | none =>
    cases reasoning with
    | none => rfl
    | some r =>
      by_cases hr : r = "" <;>
        simp [analyze_response, extract_text, pyOrStr, extract_text_amended, hr]
  | some c =>
    cases reasoning with
    | none =>
      by_cases hc : c = "" <;>
        simp [analyze_response, extract_text, pyOrStr, extract_text_amended, hc]
    | some r =>
      by_cases hc : c = "" <;> by_cases hr : r = "" <;>
        simp [analyze_response, extract_text, pyOrStr, extract_text_amended, hc, hr]

/-! ## Claim C9 -/

/-- Claim C9: for every HTTP status and every set of regex matches, the
twstalker adapter returns the empty list: on status 200 the subscript
`tweet_pattern.finditer(resp.text)[:10]` raises TypeError (an iterator
is not subscriptable), the surrounding handler catches it with zero
tweets accumulated, and on any other status no tweets are collected
either.  The HTML-scrape adapter can never contribute a post. -/
theorem fetch_via_twstalker_always_empty (status : Nat) (groups : List String)
    (account : String) :
    fetch_via_twstalker status groups account = [] := by
  rw [fetch_via_twstalker]
  by_cases h : status = 200
  · simp [h, pySlice, finditer]
  · simp [h]

/-! ## Claim C10 -/

/-- Claim C10: a post the dedup filter classifies as new has its
fingerprint in the in-memory seen list, and the state written by
`save_state` is the 500-entry truncation of that list with the refreshed
timestamp - the same for every summarizer output and notifier outcome
(no rollback on downstream failure) - so within the cap the fingerprint
is persisted. -/
theorem run_scan_no_rollback (digest : String → String) (st : ScanState)
    (tweets : List Tweet) (force : Bool) (analyzer : List Tweet → String)
    (notifier : String → Bool) (now : String) (t : Tweet)
    (hnew : t ∈ (filterNew digest tweets st.seen_hashes).1) :
    (run_scan digest st tweets force analyzer notifier now).saveCalls
        = [{ seen_hashes := lastN 500 (filterNew digest tweets st.seen_hashes).2,
             last_scan := some now }]
    ∧ fingerprint digest t ∈ (filterNew digest tweets st.seen_hashes).2
    ∧ ((filterNew digest tweets st.seen_hashes).2.length ≤ 500 →
        fingerprint digest t ∈ lastN 500 (filterNew digest tweets st.seen_hashes).2) := by
  have ht : tweets ≠ [] := by
    intro h
    subst h
    simp [filterNew] at hnew
  have hmem : fingerprint digest t ∈ (filterNew digest tweets st.seen_hashes).2 := by
    rw [filterNew_snd_eq]
    exact List.mem_append_right _ (List.mem_map_of_mem _ hnew)
  refine ⟨run_scan_saveCalls digest st tweets force analyzer notifier now ht, hmem, ?_⟩
  intro hlen
  rw [lastN_eq_self _ _ hlen]
  exact hmem

theorem run_scan_no_rollback_witness :
    (Tweet.mk "@a" "hello world" "u" ""
        ∈ (filterNew (fun s => s) [Tweet.mk "@a" "hello world" "u" ""]
            (ScanState.mk [] none).seen_hashes).1)
    ∧ ((run_scan (fun s => s) ⟨[], none⟩ [Tweet.mk "@a" "hello world" "u" ""] false
          (fun _ => "") (fun _ => false) "T").saveCalls
        = [{ seen_hashes := lastN 500 (filterNew (fun s => s)
                [Tweet.mk "@a" "hello world" "u" ""]
                (ScanState.mk [] none).seen_hashes).2,
             last_scan := some "T" }]
      ∧ fingerprint (fun s => s) (Tweet.mk "@a" "hello world" "u" "")
          ∈ (filterNew (fun s => s) [Tweet.mk "@a" "hello world" "u" ""]
              (ScanState.mk [] none).seen_hashes).2
      ∧ ((filterNew (fun s => s) [Tweet.mk "@a" "hello world" "u" ""]
            (ScanState.mk [] none).seen_hashes).2.length ≤ 500 →
          fingerprint (fun s => s) (Tweet.mk "@a" "hello world" "u" "")
            ∈ lastN 500 (filterNew (fun s => s) [Tweet.mk "@a" "hello world" "u" ""]
                (ScanState.mk [] none).seen_hashes).2)) :=
  ⟨by decide,
    run_scan_no_rollback (fun s => s) ⟨[], none⟩ [Tweet.mk "@a" "hello world" "u" ""]
      false (fun _ => "") (fun _ => false) "T" (Tweet.mk "@a" "hello world" "u" "")
      (by decide)⟩
